import Mathlib

/-!
Verification development for the booking–payment consistency subsystem of a
healthcare appointment server (TypeScript/Prisma/Stripe).

The definitions below are a shallow embedding of the source:
* `inserIntoDB`, `convertDateTime` — the slot generator
  (`src/app/modules/Schedule/schedule.service.ts`, quoted in
  `src/src/app/modules/schedule/schedule.routes.ts`);
* `createAppointment`, `createAppointmentWithPayLater`,
  `initiatePaymentForAppointment`, `updateAppointmentStatus`,
  `cancelUnpaidAppointments` — the appointment service
  (`src/unnamed/part_001`);
* `handleStripeWebhookEvent` and its controller — the payment service and
  controller (`src/unnamed/part_003`, and the implementation quoted in the
  repository document `src/unnamed/part_005`).

The persistent store is modelled as lists of records; a Prisma `$transaction`
is modelled atomically: either all of its writes apply or (when a call inside
it throws) none do.  Times are `Int` milliseconds, ids and emails are `Nat`.
-/

namespace Helthcare

/-- `AppointmentStatus` enum of the Prisma schema. -/
inductive AppointmentStatus where
  | SCHEDULED
  | INPROGRESS
  | COMPLETED
  | CANCELED
deriving DecidableEq, Repr

/-- `PaymentStatus` enum of the Prisma schema. -/
inductive PaymentStatus where
  | UNPAID
  | PAID
deriving DecidableEq, Repr

/-- A row of the `patients` table (only the fields the core reads). -/
structure Patient where
  id : Nat
  email : Nat
deriving DecidableEq, Repr

/-- A row of the `doctors` table (only the fields the core reads). -/
structure Doctor where
  id : Nat
  email : Nat
  isDeleted : Bool
  appointmentFee : Int
deriving DecidableEq, Repr

/-- A row of the `doctor_schedules` table: the binding of one schedule slot
to one doctor, with the booked flag. -/
structure DoctorSchedule where
  doctorId : Nat
  scheduleId : Nat
  isBooked : Bool
deriving DecidableEq, Repr

/-- A row of the `appointments` table. -/
structure Appointment where
  id : Nat
  patientId : Nat
  doctorId : Nat
  scheduleId : Nat
  status : AppointmentStatus
  paymentStatus : PaymentStatus
  createdAt : Int
deriving DecidableEq, Repr

/-- A row of the `payments` table.  `stripeEventId` is the nullable unique
column added for webhook idempotency. -/
structure Payment where
  id : Nat
  appointmentId : Nat
  amount : Int
  transactionId : Nat
  status : PaymentStatus
  stripeEventId : Option Nat
deriving DecidableEq, Repr

/-- The persistent store shared by the booking, webhook and reaper code.
`nextId` models Prisma/uuid id generation: fresh ids are `nextId`,
`nextId + 1`, …, so every stored id is `< nextId`. -/
structure Store where
  patients : List Patient
  doctors : List Doctor
  doctorSchedules : List DoctorSchedule
  appointments : List Appointment
  payments : List Payment
  nextId : Nat
deriving DecidableEq, Repr

/-- Error taxonomy of the server as the HTTP layer sees it.
`recordNotFound` is a Prisma P2025 throw (`findUniqueOrThrow` /
`findFirstOrThrow` / `update` on a missing row); `badRequest` is an
`ApiError(400, …)`; `conflict` (HTTP 409) is listed in the spec's taxonomy
but never raised by this code; `upstream` is a thrown gateway (Stripe)
error; `typeError` is a runtime TypeError (`appointment.payment!` on null). -/
inductive ApiErr where
  | recordNotFound
  | badRequest (msg : String)
  | conflict
  | upstream
  | typeError
deriving DecidableEq, Repr

/-! ## Slot generator (`schedule.service.ts`) -/

/-- A row of the `schedules` table: one slot, identified by its
start/end instants (minutes in the model). -/
structure Schedule where
  startDateTime : Int
  endDateTime : Int
deriving DecidableEq, Repr

/-- `convertDateTime`: adds the server's timezone offset to an instant
(`new Date(date.getTime() + offset)`). -/
def convertDateTime (offset : Int) (t : Int) : Int :=
  t + offset

/-- The hard-coded `intervalTime = 30` of `inserIntoDB`. -/
def intervalTime : Int := 30

/-- The inner `while (startDateTime < endDateTime)` loop of `inserIntoDB`,
with explicit fuel (one unit per iteration; the guard, not the fuel, is what
stops the loop whenever the fuel is at least the iteration count). -/
def genIntervalsFuel : Nat → Int → Int → List (Int × Int)
  | 0, _, _ => []
  | fuel + 1, s, e =>
    if s < e then (s, s + intervalTime) :: genIntervalsFuel fuel (s + intervalTime) e
    else []

/-- The candidate sub-intervals of one day window `[s, e)`: pairs
`(t, t + 30)` for `t = s, s+30, …` while `t < e`. -/
def genIntervals (s e : Int) : List (Int × Int) :=
  genIntervalsFuel (e - s).toNat s e

/-- The candidate intervals of calendar day `day` for the daily window
`startTime = sh:sm`, `endTime = eh:em`, after `convertDateTime` applied the
timezone offset to both endpoints (day-local instants are minutes since the
model epoch; a day is 1440 minutes). -/
def dayCandidates (offset : Int) (day : Nat) (sh sm eh em : Nat) : List (Int × Int) :=
  (genIntervals ((1440 : Int) * day + 60 * sh + sm) ((1440 : Int) * day + 60 * eh + em)).map
    (fun c => (convertDateTime offset c.1, convertDateTime offset c.2))

/-- Does the `schedules` table already hold a slot with exactly these
start/end instants (`prisma.schedule.findFirst` of `inserIntoDB`)? -/
def slotExists (db : List Schedule) (c : Int × Int) : Bool :=
  db.any (fun sch => decide (sch.startDateTime = c.1 ∧ sch.endDateTime = c.2))

/-- The per-candidate body of `inserIntoDB`: skip the candidate if an
identical slot exists, else create it.  Returns the created slots (the
`schedules` array pushed by the source) and the grown table. -/
def insertCandidates (db : List Schedule) : List (Int × Int) → List Schedule × List Schedule
  | [] => ([], db)
  | c :: rest =>
    if slotExists db c then
      insertCandidates db rest
    else
      let r := insertCandidates (db ++ [⟨c.1, c.2⟩]) rest
      (⟨c.1, c.2⟩ :: r.1, r.2)

/-- The calendar days visited by the outer
`while (currentDate <= lastDate)` loop. -/
def daysFrom (startDay endDay : Nat) : List Nat :=
  (List.range (endDay + 1 - startDay)).map (fun k => startDay + k)

/-- The outer day loop of `inserIntoDB`, iterating `insertCandidates` over
each day's candidates and concatenating the created slots. -/
def insertDays (db : List Schedule) (days : List Nat) (sh sm eh em : Nat) (offset : Int) :
    List Schedule × List Schedule :=
  match days with
  | [] => ([], db)
  | d :: rest =>
    let r1 := insertCandidates db (dayCandidates offset d sh sm eh em)
    let r2 := insertDays r1.2 rest sh sm eh em offset
    (r1.1 ++ r2.1, r2.2)

/-- `inserIntoDB` of `schedule.service.ts`: generate the slots of every day
from `startDay` to `endDay` for the daily window `sh:sm`–`eh:em`, skipping
candidates already stored.  Returns `(created slots, final table)`. -/
def inserIntoDB (db : List Schedule) (startDay endDay sh sm eh em : Nat) (offset : Int) :
    List Schedule × List Schedule :=
  insertDays db (daysFrom startDay endDay) sh sm eh em offset

example :
    (inserIntoDB [] 0 0 9 0 10 0 0).1 =
      [⟨540, 570⟩, ⟨570, 600⟩] := by decide

example :
    (inserIntoDB [] 0 0 9 0 9 45 0).1 =
      [⟨540, 570⟩, ⟨570, 600⟩] := by decide

/-! ## Booking orchestrator (`appointment.service.ts`, `src/unnamed/part_001`) -/

/-- `prisma.patient.findUniqueOrThrow({where: {email}})`. -/
def findPatient (s : Store) (email : Nat) : Option Patient :=
  s.patients.find? (fun p => decide (p.email = email))

/-- `prisma.doctor.findUniqueOrThrow({where: {id, isDeleted: false}})`. -/
def findDoctor (s : Store) (doctorId : Nat) : Option Doctor :=
  s.doctors.find? (fun d => decide (d.id = doctorId ∧ d.isDeleted = false))

/-- `prisma.doctorSchedules.findFirstOrThrow({where: {doctorId, scheduleId,
isBooked: false}})`: is the binding present and free? -/
def bindingFree (s : Store) (doctorId scheduleId : Nat) : Bool :=
  s.doctorSchedules.any
    (fun b => decide (b.doctorId = doctorId ∧ b.scheduleId = scheduleId ∧ b.isBooked = false))

/-- The booking transaction's binding flip:
`tnx.doctorSchedules.update({where: {doctorId_scheduleId}, data: {isBooked}})`. -/
def setBooked (bs : List DoctorSchedule) (doctorId scheduleId : Nat) (v : Bool) :
    List DoctorSchedule :=
  bs.map (fun b =>
    if b.doctorId = doctorId ∧ b.scheduleId = scheduleId then { b with isBooked := v } else b)

/-- The store writes shared by both booking paths, executed inside one
`prisma.$transaction`: create the `Appointment` (defaults
`status = SCHEDULED`, `paymentStatus = UNPAID`), flip the binding to
`isBooked = true`, create the `Payment` (default `status = UNPAID`,
`stripeEventId = null`) with the doctor's fee and a fresh transaction id. -/
def bookingWrites (s : Store) (patient : Patient) (doctor : Doctor) (scheduleId : Nat)
    (now : Int) : Store × Appointment :=
  let appt : Appointment :=
    { id := s.nextId, patientId := patient.id, doctorId := doctor.id,
      scheduleId := scheduleId, status := .SCHEDULED, paymentStatus := .UNPAID,
      createdAt := now }
  let pay : Payment :=
    { id := s.nextId + 1, appointmentId := appt.id, amount := doctor.appointmentFee,
      transactionId := s.nextId + 1, status := .UNPAID, stripeEventId := none }
  ({ s with
      appointments := s.appointments ++ [appt],
      doctorSchedules := setBooked s.doctorSchedules doctor.id scheduleId true,
      payments := s.payments ++ [pay],
      nextId := s.nextId + 2 }, appt)

/-- `createAppointment` (pay-now): look up the patient, the live doctor and a
free binding (each `…OrThrow`, i.e. missing → P2025 and no writes), then in
one `$transaction` create the appointment and payment, book the binding and
request a Stripe checkout session.  The session request happens INSIDE the
transaction, so when Stripe throws (`gatewayOk = false`) every write of the
transaction rolls back and the error propagates. -/
def createAppointment (s : Store) (email doctorId scheduleId : Nat) (now : Int)
    (gatewayOk : Bool) : Store × Except ApiErr String :=
  match findPatient s email with
  | none => (s, .error .recordNotFound)
  | some patient =>
    match findDoctor s doctorId with
    | none => (s, .error .recordNotFound)
    | some doctor =>
      if bindingFree s doctor.id scheduleId then
        let r := bookingWrites s patient doctor scheduleId now
        if gatewayOk then (r.1, .ok "paymentUrl")
        else (s, .error .upstream)
      else (s, .error .recordNotFound)

/-- `createAppointmentWithPayLater`: same lookups and transaction as
`createAppointment` but with no Stripe call; returns the created
appointment. -/
def createAppointmentWithPayLater (s : Store) (email doctorId scheduleId : Nat)
    (now : Int) : Store × Except ApiErr Appointment :=
  match findPatient s email with
  | none => (s, .error .recordNotFound)
  | some patient =>
    match findDoctor s doctorId with
    | none => (s, .error .recordNotFound)
    | some doctor =>
      if bindingFree s doctor.id scheduleId then
        let r := bookingWrites s patient doctor scheduleId now
        (r.1, .ok r.2)
      else (s, .error .recordNotFound)

/-- `prisma.appointment.findUnique({where: {id, patientId}})` of
`initiatePaymentForAppointment`. -/
def findOwnedAppointment (s : Store) (appointmentId patientId : Nat) : Option Appointment :=
  s.appointments.find? (fun a => decide (a.id = appointmentId ∧ a.patientId = patientId))

/-- The `payment` relation included with the appointment (`payment` is
one-to-one with a unique `appointmentId`). -/
def findPaymentOfAppointment (s : Store) (appointmentId : Nat) : Option Payment :=
  s.payments.find? (fun p => decide (p.appointmentId = appointmentId))

/-- `initiatePaymentForAppointment`: resolve the patient, then the
appointment owned by them (missing or foreign → 400), reject when
`paymentStatus ≠ UNPAID` or `status = CANCELED`, then create a Stripe
checkout session from the existing payment record
(`appointment.payment!.amount` — a null payment is a runtime TypeError).
No store write on any path. -/
def initiatePaymentForAppointment (s : Store) (appointmentId email : Nat)
    (gatewayOk : Bool) : Store × Except ApiErr String :=
  match findPatient s email with
  | none => (s, .error .recordNotFound)
  | some patient =>
    match findOwnedAppointment s appointmentId patient.id with
    | none => (s, .error (.badRequest "Appointment not found or unauthorized"))
    | some appointment =>
      if appointment.paymentStatus ≠ PaymentStatus.UNPAID then
        (s, .error (.badRequest "Payment already completed for this appointment"))
      else if appointment.status = AppointmentStatus.CANCELED then
        (s, .error (.badRequest "Cannot pay for cancelled appointment"))
      else
        match findPaymentOfAppointment s appointment.id with
        | none => (s, .error .typeError)
        | some _ =>
          if gatewayOk then (s, .ok "paymentUrl") else (s, .error .upstream)

/-- The status write of `updateAppointmentStatus`:
`prisma.appointment.update({where: {id}, data: {status}})`. -/
def setStatus (s : Store) (appointmentId : Nat) (status : AppointmentStatus) : Store :=
  { s with
    appointments := s.appointments.map
      (fun a => if a.id = appointmentId then { a with status := status } else a) }

/-- `updateAppointmentStatus`: look up the appointment with its doctor
(`findUniqueOrThrow` with `include: {doctor}`), reject a doctor who does
not own it, else write the new `status`. `asDoctorEmail = some e` models
`user.role === DOCTOR` with email `e`. -/
def updateAppointmentStatus (s : Store) (appointmentId : Nat)
    (status : AppointmentStatus) (asDoctorEmail : Option Nat) :
    Store × Except ApiErr Unit :=
  match s.appointments.find? (fun a => decide (a.id = appointmentId)) with
  | none => (s, .error .recordNotFound)
  | some appointment =>
    let ownerEmail :=
      (s.doctors.find? (fun d => decide (d.id = appointment.doctorId))).map (fun d => d.email)
    match asDoctorEmail with
    | some e =>
      if ownerEmail ≠ some e then (s, .error (.badRequest "This is not your appointment"))
      else (setStatus s appointmentId status, .ok ())
    | none => (setStatus s appointmentId status, .ok ())

/-! ## Reservation reaper (`cancelUnpaidAppointments`) -/

/-- The reaper's select: `prisma.appointment.findMany({where: {createdAt:
{lte: thirtyMinAgo}, paymentStatus: UNPAID}})` with
`thirtyMinAgo = now - 30 * 60 * 1000`. -/
def reaperSelect (s : Store) (now : Int) : List Appointment :=
  s.appointments.filter
    (fun a => decide (a.createdAt ≤ now - 30 * 60 * 1000 ∧ a.paymentStatus = PaymentStatus.UNPAID))

/-- The reaper's single bulk `$transaction`, applied to a previously selected
list `stale`: `updateMany` sets `status = CANCELED` for every selected id
(without re-reading `paymentStatus`), `deleteMany` removes their payments,
and a loop frees each selected appointment's binding. -/
def reaperApply (s : Store) (stale : List Appointment) : Store :=
  let ids := stale.map (fun a => a.id)
  { s with
    appointments := s.appointments.map
      (fun a => if a.id ∈ ids then { a with status := .CANCELED } else a),
    payments := s.payments.filter (fun p => decide (p.appointmentId ∉ ids)),
    doctorSchedules := stale.foldl
      (fun bs ap => setBooked bs ap.doctorId ap.scheduleId false) s.doctorSchedules }

/-- `cancelUnpaidAppointments`: select the stale unpaid appointments, then
cancel them all in one bulk transaction. -/
def cancelUnpaidAppointments (s : Store) (now : Int) : Store :=
  reaperApply s (reaperSelect s now)

/-! ## Webhook processor (`payment.service.ts` / `payment.controller.ts`) -/

/-- The Stripe event kinds the service dispatches on. -/
inductive EventType where
  | sessionCompleted
  | sessionExpired
  | paymentFailed
  | other
deriving DecidableEq, Repr

/-- A verified Stripe event: its globally unique id, its type, and the
`{appointmentId, paymentId}` correlation metadata of the checkout session
(each `session.metadata?.…`, hence optional). -/
structure StripeEvent where
  id : Nat
  type : EventType
  metaAppointmentId : Option Nat
  metaPaymentId : Option Nat
deriving DecidableEq, Repr

/-- The acknowledgment messages the webhook service returns. -/
inductive WebhookMsg where
  | alreadyProcessed
  | missingMetadata
  | appointmentNotFound
  | processed
  | ignored
deriving DecidableEq, Repr

/-- `PaymentService.handleStripeWebhookEvent` (quoted in
`src/unnamed/part_005`): on `checkout.session.completed` — idempotency gate
on `stripeEventId = event.id`, metadata extraction, appointment existence
check (each early-returning a message), then one `$transaction` setting
`Appointment.paymentStatus = PAID` and
`Payment{status = PAID, stripeEventId = event.id}`; a `payment.update` on a
missing id throws P2025, rolling the whole transaction back (`.error`).
`checkout.session.expired` / `payment_intent.payment_failed` / unhandled
types are logged only. -/
def handleStripeWebhookEvent (s : Store) (ev : StripeEvent) :
    Store × Except String WebhookMsg :=
  match ev.type with
  | .sessionCompleted =>
    if s.payments.any (fun p => decide (p.stripeEventId = some ev.id)) then
      (s, .ok .alreadyProcessed)
    else
      match ev.metaAppointmentId, ev.metaPaymentId with
      | some appointmentId, some paymentId =>
        if s.appointments.any (fun a => decide (a.id = appointmentId)) then
          if s.payments.any (fun p => decide (p.id = paymentId)) then
            ({ s with
                appointments := s.appointments.map
                  (fun a => if a.id = appointmentId then { a with paymentStatus := .PAID } else a),
                payments := s.payments.map
                  (fun p => if p.id = paymentId then
                    { p with status := .PAID, stripeEventId := some ev.id } else p) },
              .ok .processed)
          else (s, .error "payment record not found")
        else (s, .ok .appointmentNotFound)
      | _, _ => (s, .ok .missingMetadata)
  | _ => (s, .ok .ignored)

/-- `PaymentController.handleStripeWebhookEvent` (`src/unnamed/part_003`):
missing webhook secret → 500; failed signature verification
(`constructEvent` threw, modelled by `verified = none`) → 400; otherwise run
the service and answer 200 whether it returned or threw. -/
def handleStripeWebhookEventController (secretConfigured : Bool)
    (verified : Option StripeEvent) (s : Store) : Store × Nat :=
  if secretConfigured = false then (s, 500)
  else
    match verified with
    | none => (s, 400)
    | some ev => ((handleStripeWebhookEvent s ev).1, 200)

/-- `n` deliveries of the same event, threading the store. -/
def iterateWebhook : Nat → Store → StripeEvent → Store
  | 0, s, _ => s
  | n + 1, s, ev => iterateWebhook n (handleStripeWebhookEvent s ev).1 ev

/-! ## Concrete scenario stores -/

/-- A fresh deployment: one patient (id 1, email 10), one live doctor
(id 2, email 20, fee 500), one free binding of doctor 2 to schedule slot 3,
a second patient (id 4, email 11), and no appointments or payments yet. -/
def demoStore : Store :=
  { patients := [⟨1, 10⟩, ⟨4, 11⟩],
    doctors := [⟨2, 20, false, 500⟩],
    doctorSchedules := [⟨2, 3, false⟩],
    appointments := [],
    payments := [],
    nextId := 100 }

/-- `demoStore` after patient 1 books slot 3 with deferred payment at time 0:
appointment 100 (SCHEDULED, UNPAID), payment 101, binding booked. -/
def bookedStore : Store :=
  (createAppointmentWithPayLater demoStore 10 2 3 0).1

/-- The `checkout.session.completed` event (id 7) for appointment 100 /
payment 101. -/
def evCompleted : StripeEvent :=
  { id := 7, type := .sessionCompleted,
    metaAppointmentId := some 100, metaPaymentId := some 101 }

/-- `bookedStore` after the completion webhook: appointment 100 and payment
101 both PAID, `stripeEventId = 7`. -/
def paidStore : Store :=
  (handleStripeWebhookEvent bookedStore evCompleted).1

/-- An instant 30 minutes (in ms) after the booking at time 0, so that
appointment 100 is exactly stale at a reaper run. -/
def reapTime : Int := 30 * 60 * 1000

example : bookedStore.appointments =
    [⟨100, 1, 2, 3, .SCHEDULED, .UNPAID, 0⟩] := by decide
example : paidStore.appointments =
    [⟨100, 1, 2, 3, .SCHEDULED, .PAID, 0⟩] := by decide
example : paidStore.payments =
    [⟨101, 100, 500, 101, .PAID, some 7⟩] := by decide

/-! ## C7: the webhook controller acknowledges every verified event -/

/-- Helper: the controller branch for a verified event always answers 200,
whatever the service did to the store or returned. -/
theorem controller_ack_200 (ev : StripeEvent) (s : Store) :
    (handleStripeWebhookEventController true (some ev) s).2 = 200 := by
  simp [handleStripeWebhookEventController]

/-- C7: for every event whose signature verifies (the secret is configured
and `constructEvent` succeeded), the webhook controller responds 200 to the
gateway no matter what internal processing did — internal failures are
absorbed, never surfaced as a retry-triggering failure. -/
theorem C7_webhook_always_acknowledges (ev : StripeEvent) (s : Store) :
    (handleStripeWebhookEventController true (some ev) s).2 = 200 :=
  controller_ack_200 ev s

/-! ## C9: pay-now booking rolls back atomically on gateway failure -/

/-- Helper: with the checkout-session call failing, `createAppointment`
returns the untouched store with an error, whichever path it takes. -/
theorem createAppointment_gateway_fail (s : Store) (e d sl : Nat) (t : Int) :
    ∃ err, createAppointment s e d sl t false = (s, Except.error err) := by
  unfold createAppointment
  cases hp : findPatient s e with
  | none => exact ⟨.recordNotFound, rfl⟩
  | some patient =>
    cases hd : findDoctor s d with
    | none => exact ⟨.recordNotFound, rfl⟩
    | some doctor =>
      by_cases hb : bindingFree s doctor.id sl = true
      · exact ⟨.upstream, by simp [hb]⟩
      · exact ⟨.recordNotFound, by simp [hb]⟩

/-- C9: when the Stripe checkout-session request inside the booking
transaction throws, the whole reservation rolls back: the store after the
call is exactly the store before it (no appointment, no payment, no booked
binding), and the call fails; when the patient, doctor and free binding
checks all passed, the surfaced error is the gateway's. -/
theorem C9_payNow_rollback_on_gateway_failure (s : Store) (e d sl : Nat) (t : Int) :
    (∃ err, createAppointment s e d sl t false = (s, Except.error err)) ∧
    (∀ patient doctor, findPatient s e = some patient → findDoctor s d = some doctor →
      bindingFree s doctor.id sl = true →
      createAppointment s e d sl t false = (s, Except.error ApiErr.upstream)) := by
  refine ⟨createAppointment_gateway_fail s e d sl t, ?_⟩
  intro patient doctor hp hd hb
  simp [createAppointment, hp, hd, hb]

/-- Witness for C9 at `demoStore`: all three checks pass and the failed
gateway call leaves the store untouched with an upstream error. -/
theorem C9_witness :
    createAppointment demoStore 10 2 3 0 false = (demoStore, Except.error ApiErr.upstream) :=
  (C9_payNow_rollback_on_gateway_failure demoStore 10 2 3 0).2 ⟨1, 10⟩ ⟨2, 20, false, 500⟩
    (by decide) (by decide) (by decide)

/-! ## C6: shape of the generated slots -/

/-- Helper: with enough fuel, the inner slot loop over a window of exactly
`n` interval lengths produces the `n` consecutive 30-minute intervals. -/
theorem genIntervalsFuel_partition (n : Nat) :
    ∀ (fuel : Nat) (s : Int), n ≤ fuel →
      genIntervalsFuel fuel s (s + 30 * n) =
        (List.range n).map (fun k : Nat => (s + 30 * (k : Int), s + 30 * (k : Int) + 30)) := by
  induction n with
  | zero =>
    intro fuel s _
    cases fuel with
    | zero => simp [genIntervalsFuel]
    | succ f => simp [genIntervalsFuel]
  | succ m ih =>
    intro fuel s hf
    cases fuel with
    | zero => omega
    | succ f =>
      have hlt : s < s + 30 * ((m : Int) + 1) := by omega
      have hrw : s + 30 * (((m : Nat) + 1 : Nat) : Int) = (s + 30) + 30 * (m : Int) := by
        push_cast; ring
      rw [genIntervalsFuel, hrw]
      have hlt' : s < s + 30 + 30 * (m : Int) := by omega
      rw [if_pos hlt', intervalTime]
      rw [ih f (s + 30) (by omega)]
      rw [List.range_succ_eq_map, List.map_cons, List.map_map]
      congr 1
      · simp
      · apply List.map_congr_left
        intro k _
        simp only [Function.comp_apply, Prod.mk.injEq]
        constructor <;> (push_cast; ring)

/-- Helper: the candidate list of a window whose length is an exact multiple
of the 30-minute interval is the list of consecutive 30-minute intervals
tiling the window. -/
theorem genIntervals_partition (n : Nat) (s : Int) :
    genIntervals s (s + 30 * n) =
      (List.range n).map (fun k : Nat => (s + 30 * (k : Int), s + 30 * (k : Int) + 30)) := by
  unfold genIntervals
  have : (s + 30 * (n : Int) - s).toNat = 30 * n := by omega
  rw [this]
  exact genIntervalsFuel_partition n (30 * n) s (by omega)

/-- C6 counterexample: for the daily window 09:00–09:45 (length not a
multiple of the 30-minute interval) the generator creates the slots
[09:00, 09:30) and [09:30, 10:00); the second extends past the window end
09:45 (minute 585), so the slots do not partition the
[startTime, endTime) window as the claim states. -/
theorem C6_counterexample :
    (inserIntoDB [] 0 0 9 0 9 45 0).1 = [⟨540, 570⟩, ⟨570, 600⟩] ∧
    ((570 : Int) < 585 ∧ (585 : Int) < 600) := by
  exact ⟨by decide, by decide⟩

/-- C6 (amended): generating one day with window 09:00–10:00 at offset 0
yields exactly the slots [09:00, 09:30) and [09:30, 10:00) of that day; and
whenever the daily window spans exactly `n` interval lengths, the candidate
slots are the `n` consecutive 30-minute intervals partitioning the window
(for other window lengths the last slot overruns `endTime`, as the
counterexample shows). -/
theorem C6_slots_of_window (n : Nat) (t : Int) :
    (inserIntoDB [] 0 0 9 0 10 0 0).1 = [⟨540, 570⟩, ⟨570, 600⟩] ∧
    genIntervals t (t + 30 * n) =
      (List.range n).map (fun k : Nat => (t + 30 * (k : Int), t + 30 * (k : Int) + 30)) :=
  ⟨by decide, genIntervals_partition n t⟩

/-! ## C8: slot generation is idempotent -/

/-- Helper: `slotExists` as an existence statement. -/
theorem slotExists_iff (db : List Schedule) (c : Int × Int) :
    slotExists db c = true ↔
      ∃ sch ∈ db, sch.startDateTime = c.1 ∧ sch.endDateTime = c.2 := by
  simp [slotExists]

/-- Helper: inserting candidates only grows the table. -/
theorem insertCandidates_mono :
    ∀ (cs : List (Int × Int)) (db : List Schedule) (x : Schedule),
      x ∈ db → x ∈ (insertCandidates db cs).2 := by
  intro cs
  induction cs with
  | nil => intro db x hx; simpa [insertCandidates] using hx
  | cons c rest ih =>
    intro db x hx
    by_cases h : slotExists db c = true
    · simpa [insertCandidates, h] using ih db x hx
    · simpa [insertCandidates, h] using ih (db ++ [⟨c.1, c.2⟩]) x (List.mem_append_left _ hx)

/-- Helper: after inserting a candidate list, each of its candidates exists
in the resulting table. -/
theorem insertCandidates_complete :
    ∀ (cs : List (Int × Int)) (db : List Schedule) (c : Int × Int),
      c ∈ cs → slotExists (insertCandidates db cs).2 c = true := by
  intro cs
  induction cs with
  | nil => intro db c hc; cases hc
  | cons c' rest ih =>
    intro db c hc
    by_cases h : slotExists db c' = true
    · rcases List.mem_cons.mp hc with rfl | hmem
      · rcases (slotExists_iff db c).mp h with ⟨sch, hsch, hfields⟩
        refine (slotExists_iff _ c).mpr ⟨sch, ?_, hfields⟩
        simp only [insertCandidates, h, if_pos]
        exact insertCandidates_mono rest db sch hsch
      · simpa [insertCandidates, h] using ih db c hmem
    · rcases List.mem_cons.mp hc with rfl | hmem
      · refine (slotExists_iff _ c).mpr ⟨⟨c.1, c.2⟩, ?_, rfl, rfl⟩
        simp only [insertCandidates, h, if_neg, Bool.false_eq_true, not_false_iff]
        exact insertCandidates_mono rest (db ++ [⟨c.1, c.2⟩]) _
          (List.mem_append_right _ (List.mem_singleton.mpr rfl))
      · simpa [insertCandidates, h] using ih (db ++ [⟨c'.1, c'.2⟩]) c hmem

/-- Helper: a candidate list all of whose members already exist is a no-op:
nothing is created and the table is unchanged. -/
theorem insertCandidates_noop :
    ∀ (cs : List (Int × Int)) (db : List Schedule),
      (∀ c ∈ cs, slotExists db c = true) → insertCandidates db cs = ([], db) := by
  intro cs
  induction cs with
  | nil => intro db _; rfl
  | cons c rest ih =>
    intro db h
    have hc := h c (List.mem_cons_self c rest)
    simp only [insertCandidates, hc, if_pos]
    exact ih db (fun c' hc' => h c' (List.mem_cons_of_mem c hc'))

/-- Helper: the day loop only grows the table. -/
theorem insertDays_mono (sh sm eh em : Nat) (off : Int) :
    ∀ (days : List Nat) (db : List Schedule) (x : Schedule),
      x ∈ db → x ∈ (insertDays db days sh sm eh em off).2 := by
  intro days
  induction days with
  | nil => intro db x hx; simpa [insertDays] using hx
  | cons d rest ih =>
    intro db x hx
    simp only [insertDays]
    exact ih _ x (insertCandidates_mono _ db x hx)

/-- Helper: after the day loop, every candidate of every processed day
exists in the table. -/
theorem insertDays_complete (sh sm eh em : Nat) (off : Int) :
    ∀ (days : List Nat) (db : List Schedule) (d : Nat) (c : Int × Int),
      d ∈ days → c ∈ dayCandidates off d sh sm eh em →
      slotExists (insertDays db days sh sm eh em off).2 c = true := by
  intro days
  induction days with
  | nil => intro db d c hd _; cases hd
  | cons d' rest ih =>
    intro db d c hd hc
    rcases List.mem_cons.mp hd with rfl | hmem
    · have h1 := insertCandidates_complete (dayCandidates off d sh sm eh em) db c hc
      rcases (slotExists_iff _ c).mp h1 with ⟨sch, hsch, hfields⟩
      refine (slotExists_iff _ c).mpr ⟨sch, ?_, hfields⟩
      simp only [insertDays]
      exact insertDays_mono sh sm eh em off rest _ sch hsch
    · simp only [insertDays]
      exact ih _ d c hmem hc

/-- Helper: a day loop all of whose candidates already exist is a no-op. -/
theorem insertDays_noop (sh sm eh em : Nat) (off : Int) :
    ∀ (days : List Nat) (db : List Schedule),
      (∀ d ∈ days, ∀ c ∈ dayCandidates off d sh sm eh em, slotExists db c = true) →
      insertDays db days sh sm eh em off = ([], db) := by
  intro days
  induction days with
  | nil => intro db _; rfl
  | cons d rest ih =>
    intro db h
    have h1 : insertCandidates db (dayCandidates off d sh sm eh em) = ([], db) :=
      insertCandidates_noop _ db (h d (List.mem_cons_self d rest))
    simp only [insertDays, h1]
    have h2 := ih db (fun d' hd' => h d' (List.mem_cons_of_mem d hd'))
    simp [h2]

/-- C8: slot generation is idempotent: a candidate whose instants already
exist as a slot creates nothing, and re-running the generator over the same
date range and daily window creates no slot and leaves the table exactly as
after the first run. -/
theorem C8_generator_idempotent (db : List Schedule) (d1 d2 sh sm eh em : Nat) (off : Int) :
    (∀ cs, (∀ c ∈ cs, slotExists db c = true) → insertCandidates db cs = ([], db)) ∧
    inserIntoDB (inserIntoDB db d1 d2 sh sm eh em off).2 d1 d2 sh sm eh em off =
      ([], (inserIntoDB db d1 d2 sh sm eh em off).2) := by
  constructor
  · intro cs h
    exact insertCandidates_noop cs db h
  · unfold inserIntoDB
    apply insertDays_noop
    intro d hd c hc
    exact insertDays_complete sh sm eh em off (daysFrom d1 d2) db d c hd hc

/-- Witness for C8's conditional part: re-inserting the one existing slot of
a one-slot table creates nothing. -/
theorem C8_witness :
    insertCandidates [⟨540, 570⟩] [(540, 570)] = ([], [⟨540, 570⟩]) :=
  (C8_generator_idempotent [⟨540, 570⟩] 0 0 9 0 10 0 0).1 [(540, 570)] (by decide)

/-! ## C1: webhook event processing is idempotent -/

/-- Helper: once some payment records the event id, the service changes
nothing (even a non-`completed` event leaves the store untouched). -/
theorem handle_fst_eq_of_recorded (s : Store) (ev : StripeEvent)
    (h : ∃ p ∈ s.payments, p.stripeEventId = some ev.id) :
    (handleStripeWebhookEvent s ev).1 = s := by
  obtain ⟨i, ty, ma, mp⟩ := ev
  cases ty with
  | sessionCompleted =>
    have hgate : s.payments.any (fun p => decide (p.stripeEventId = some i)) = true := by
      rcases h with ⟨p, hp, he⟩
      exact List.any_eq_true.mpr ⟨p, hp, by simp_all⟩
    simp [handleStripeWebhookEvent, hgate]
  | sessionExpired => rfl
  | paymentFailed => rfl
  | other => rfl

/-- Helper: a store the service just produced absorbs a redelivery of the
same event: applying the service twice equals applying it once. -/
theorem handle_idem (s : Store) (ev : StripeEvent) :
    (handleStripeWebhookEvent (handleStripeWebhookEvent s ev).1 ev).1 =
      (handleStripeWebhookEvent s ev).1 := by
  obtain ⟨i, ty, ma, mp⟩ := ev
  cases ty with
  | sessionCompleted =>
    by_cases hgate : s.payments.any (fun p => decide (p.stripeEventId = some i)) = true
    · simp [handleStripeWebhookEvent, hgate]
    · cases ma with
      | none => simp [handleStripeWebhookEvent, hgate]
      | some aid =>
        cases mp with
        | none => simp [handleStripeWebhookEvent, hgate]
        | some pid =>
          by_cases happ : s.appointments.any (fun a => decide (a.id = aid)) = true
          · by_cases hpay : s.payments.any (fun p => decide (p.id = pid)) = true
            · -- success path: the updated payment now records the event id
              rcases List.any_eq_true.mp hpay with ⟨p, hp, hpid⟩
              have hpid' : p.id = pid := by simpa using hpid
              have hgate' :
                  (s.payments.map (fun p => if p.id = pid then
                    { p with status := PaymentStatus.PAID,
                             stripeEventId := some i } else p)).any
                    (fun p => decide (p.stripeEventId = some i)) = true := by
                refine List.any_eq_true.mpr ?_
                refine ⟨_, List.mem_map_of_mem _ hp, ?_⟩
                rw [if_pos hpid']
                simp
              simp only [handleStripeWebhookEvent, hgate, happ, hpay, if_pos, if_neg,
                Bool.false_eq_true, not_false_iff, if_true]
              simp [hgate', happ, hpay]
            · simp [handleStripeWebhookEvent, hgate, happ, hpay]
          · simp [handleStripeWebhookEvent, hgate, happ]
  | sessionExpired => rfl
  | paymentFailed => rfl
  | other => rfl

/-- Helper: `n + 1` deliveries of one event end in the same store as a
single delivery. -/
theorem iterateWebhook_absorbs (n : Nat) :
    ∀ (s : Store) (ev : StripeEvent),
      iterateWebhook (n + 1) s ev = iterateWebhook 1 s ev := by
  induction n with
  | zero => intro s ev; rfl
  | succ m ih =>
    intro s ev
    calc iterateWebhook (m + 2) s ev
        = iterateWebhook (m + 1) (handleStripeWebhookEvent s ev).1 ev := rfl
      _ = iterateWebhook 1 (handleStripeWebhookEvent s ev).1 ev := ih _ ev
      _ = (handleStripeWebhookEvent (handleStripeWebhookEvent s ev).1 ev).1 := rfl
      _ = (handleStripeWebhookEvent s ev).1 := handle_idem s ev
      _ = iterateWebhook 1 s ev := rfl

/-- C1: an event whose id some payment already records as `stripeEventId`
is acknowledged successfully (HTTP 200) with no change to any appointment
or payment; and replaying one identical event any number of times leaves
the store exactly as a single delivery does — the payment record is mutated
at most once. -/
theorem C1_webhook_idempotent :
    (∀ (s : Store) (ev : StripeEvent),
      (∃ p ∈ s.payments, p.stripeEventId = some ev.id) →
      (handleStripeWebhookEvent s ev).1 = s ∧
      (handleStripeWebhookEventController true (some ev) s).2 = 200) ∧
    (∀ (n : Nat) (s : Store) (ev : StripeEvent),
      iterateWebhook (n + 1) s ev = iterateWebhook 1 s ev) :=
  ⟨fun s ev h => ⟨handle_fst_eq_of_recorded s ev h, controller_ack_200 ev s⟩,
    fun n s ev => iterateWebhook_absorbs n s ev⟩

/-- Witness for C1 at `paidStore` (payment 101 records event 7): redelivery
of `evCompleted` changes nothing. -/
theorem C1_witness :
    (handleStripeWebhookEvent paidStore evCompleted).1 = paidStore :=
  (C1_webhook_idempotent.1 paidStore evCompleted
    ⟨⟨101, 100, 500, 101, .PAID, some 7⟩, by decide, by decide⟩).1

/-! ## C10: initiate-payment never writes and rejects bad targets -/

/-- Helper: `initiatePaymentForAppointment` returns the store it was
given, on every path. -/
theorem initiatePayment_readonly (s : Store) (aid em : Nat) (ok : Bool) :
    (initiatePaymentForAppointment s aid em ok).1 = s := by
  unfold initiatePaymentForAppointment
  cases hp : findPatient s em with
  | none => rfl
  | some patient =>
    dsimp only
    cases ha : findOwnedAppointment s aid patient.id with
    | none => rfl
    | some appointment =>
      dsimp only
      by_cases h1 : appointment.paymentStatus ≠ PaymentStatus.UNPAID
      · rw [if_pos h1]
      · rw [if_neg h1]
        by_cases h2 : appointment.status = AppointmentStatus.CANCELED
        · rw [if_pos h2]
        · rw [if_neg h2]
          cases hpay : findPaymentOfAppointment s appointment.id with
          | none => rfl
          | some pay =>
            dsimp only
            cases ok <;> rfl

/-- Helper: a missing or foreign appointment is rejected with a 400. -/
theorem initiatePayment_eq_of_noAppointment (s : Store) (aid em : Nat) (ok : Bool)
    (patient : Patient) (hp : findPatient s em = some patient)
    (ha : findOwnedAppointment s aid patient.id = none) :
    initiatePaymentForAppointment s aid em ok =
      (s, Except.error (ApiErr.badRequest "Appointment not found or unauthorized")) := by
  unfold initiatePaymentForAppointment
  rw [hp]; dsimp only; rw [ha]

/-- Helper: a non-UNPAID appointment is rejected with a 400. -/
theorem initiatePayment_eq_of_notUnpaid (s : Store) (aid em : Nat) (ok : Bool)
    (patient : Patient) (appointment : Appointment)
    (hp : findPatient s em = some patient)
    (ha : findOwnedAppointment s aid patient.id = some appointment)
    (h1 : appointment.paymentStatus ≠ PaymentStatus.UNPAID) :
    initiatePaymentForAppointment s aid em ok =
      (s, Except.error (ApiErr.badRequest "Payment already completed for this appointment")) := by
  unfold initiatePaymentForAppointment
  rw [hp]; dsimp only; rw [ha]; dsimp only; rw [if_pos h1]

/-- Helper: a CANCELED appointment is rejected with a 400. -/
theorem initiatePayment_eq_of_canceled (s : Store) (aid em : Nat) (ok : Bool)
    (patient : Patient) (appointment : Appointment)
    (hp : findPatient s em = some patient)
    (ha : findOwnedAppointment s aid patient.id = some appointment)
    (h1 : appointment.paymentStatus = PaymentStatus.UNPAID)
    (h2 : appointment.status = AppointmentStatus.CANCELED) :
    initiatePaymentForAppointment s aid em ok =
      (s, Except.error (ApiErr.badRequest "Cannot pay for cancelled appointment")) := by
  unfold initiatePaymentForAppointment
  rw [hp]; dsimp only; rw [ha]; dsimp only
  rw [if_neg (not_not_intro h1), if_pos h2]

/-- C10: `initiatePaymentForAppointment` never writes to the store — every
appointment, payment and binding is exactly as before — and it fails
whenever the appointment does not exist for the requesting patient,
whenever its `paymentStatus` is not UNPAID, and whenever its `status` is
CANCELED. -/
theorem C10_initiatePayment_readonly_and_guards (s : Store) (aid em : Nat) (ok : Bool) :
    (initiatePaymentForAppointment s aid em ok).1 = s ∧
    (∀ patient, findPatient s em = some patient →
      findOwnedAppointment s aid patient.id = none →
      ∃ e, (initiatePaymentForAppointment s aid em ok).2 = Except.error e) ∧
    (∀ patient appointment, findPatient s em = some patient →
      findOwnedAppointment s aid patient.id = some appointment →
      (appointment.paymentStatus ≠ PaymentStatus.UNPAID ∨
        appointment.status = AppointmentStatus.CANCELED) →
      ∃ e, (initiatePaymentForAppointment s aid em ok).2 = Except.error e) := by
  refine ⟨initiatePayment_readonly s aid em ok, ?_, ?_⟩
  · intro patient hp ha
    exact ⟨.badRequest "Appointment not found or unauthorized",
      by rw [initiatePayment_eq_of_noAppointment s aid em ok patient hp ha]⟩
  · intro patient appointment hp ha hbad
    by_cases h1 : appointment.paymentStatus = PaymentStatus.UNPAID
    · have h2 : appointment.status = AppointmentStatus.CANCELED := by tauto
      exact ⟨.badRequest "Cannot pay for cancelled appointment",
        by rw [initiatePayment_eq_of_canceled s aid em ok patient appointment hp ha h1 h2]⟩
    · exact ⟨.badRequest "Payment already completed for this appointment",
        by rw [initiatePayment_eq_of_notUnpaid s aid em ok patient appointment hp ha h1]⟩

/-- Witness for C10: after the reaper cancels appointment 100, initiating
payment for it is rejected and the store is untouched. -/
theorem C10_witness :
    (initiatePaymentForAppointment (cancelUnpaidAppointments bookedStore reapTime) 100 10 true).1 =
      cancelUnpaidAppointments bookedStore reapTime ∧
    ∃ e, (initiatePaymentForAppointment (cancelUnpaidAppointments bookedStore reapTime)
      100 10 true).2 = Except.error e :=
  ⟨(C10_initiatePayment_readonly_and_guards
      (cancelUnpaidAppointments bookedStore reapTime) 100 10 true).1,
    (C10_initiatePayment_readonly_and_guards
      (cancelUnpaidAppointments bookedStore reapTime) 100 10 true).2.2
      ⟨1, 10⟩ ⟨100, 1, 2, 3, .CANCELED, .UNPAID, 0⟩ (by decide) (by decide)
      (Or.inr (by decide))⟩

/-! ## Reaper lemmas (C4, C5) -/

/-- Helper: the bulk cancel marks every appointment whose id was selected
CANCELED, carrying its `paymentStatus` over unchanged (no re-read). -/
theorem reaperApply_cancels (s : Store) (stale : List Appointment) (a : Appointment)
    (ha : a ∈ s.appointments) (hid : a.id ∈ stale.map (fun x => x.id)) :
    { a with status := AppointmentStatus.CANCELED } ∈ (reaperApply s stale).appointments := by
  unfold reaperApply
  dsimp only
  have h := List.mem_map_of_mem
    (fun x : Appointment => if x.id ∈ stale.map (fun y => y.id) then
      { x with status := AppointmentStatus.CANCELED } else x) ha
  dsimp only at h
  rw [if_pos hid] at h
  exact h

/-- Helper: the bulk delete removes every payment of a selected id. -/
theorem reaperApply_deletes (s : Store) (stale : List Appointment) (a : Appointment)
    (hid : a.id ∈ stale.map (fun x => x.id)) :
    ∀ p ∈ (reaperApply s stale).payments, p.appointmentId ≠ a.id := by
  intro p hp
  unfold reaperApply at hp
  dsimp only at hp
  have := List.of_mem_filter hp
  intro hcontra
  rw [hcontra] at this
  simp [hid] at this

/-- Helper: `setBooked … false` leaves every binding's flag false or
unchanged, so a binding already released stays released. -/
theorem setBooked_false_preserves (bs : List DoctorSchedule) (d sl d0 sl0 : Nat)
    (h : ∀ b ∈ bs, b.doctorId = d0 → b.scheduleId = sl0 → b.isBooked = false) :
    ∀ b ∈ setBooked bs d sl false, b.doctorId = d0 → b.scheduleId = sl0 → b.isBooked = false := by
  intro b hb hd hsl
  unfold setBooked at hb
  rcases List.mem_map.mp hb with ⟨b0, hb0, rfl⟩
  by_cases hmatch : b0.doctorId = d ∧ b0.scheduleId = sl
  · rw [if_pos hmatch]
  · rw [if_neg hmatch]
    rw [if_neg hmatch] at hd hsl
    exact h b0 hb0 hd hsl

/-- Helper: `setBooked … false` releases every binding matching the key. -/
theorem setBooked_false_releases (bs : List DoctorSchedule) (d sl : Nat) :
    ∀ b ∈ setBooked bs d sl false, b.doctorId = d → b.scheduleId = sl → b.isBooked = false := by
  intro b hb hd hsl
  unfold setBooked at hb
  rcases List.mem_map.mp hb with ⟨b0, hb0, rfl⟩
  by_cases hmatch : b0.doctorId = d ∧ b0.scheduleId = sl
  · rw [if_pos hmatch]
  · rw [if_neg hmatch] at hd hsl ⊢
    exact absurd ⟨hd, hsl⟩ hmatch

/-- Helper: the release loop preserves an already-released key. -/
theorem releaseLoop_preserves (stale : List Appointment) :
    ∀ (bs : List DoctorSchedule) (d0 sl0 : Nat),
      (∀ b ∈ bs, b.doctorId = d0 → b.scheduleId = sl0 → b.isBooked = false) →
      ∀ b ∈ stale.foldl (fun bs ap => setBooked bs ap.doctorId ap.scheduleId false) bs,
        b.doctorId = d0 → b.scheduleId = sl0 → b.isBooked = false := by
  induction stale with
  | nil => intro bs d0 sl0 h; simpa using h
  | cons ap rest ih =>
    intro bs d0 sl0 h
    simp only [List.foldl_cons]
    exact ih _ d0 sl0 (setBooked_false_preserves bs ap.doctorId ap.scheduleId d0 sl0 h)

/-- Helper: after the release loop, the binding key of each selected
appointment is free. -/
theorem releaseLoop_releases (stale : List Appointment) :
    ∀ (bs : List DoctorSchedule) (ap : Appointment), ap ∈ stale →
      ∀ b ∈ stale.foldl (fun bs ap => setBooked bs ap.doctorId ap.scheduleId false) bs,
        b.doctorId = ap.doctorId → b.scheduleId = ap.scheduleId → b.isBooked = false := by
  induction stale with
  | nil => intro bs ap hap; cases hap
  | cons ap' rest ih =>
    intro bs ap hap b hb hd hsl
    rcases List.mem_cons.mp hap with rfl | hmem
    · simp only [List.foldl_cons] at hb
      exact releaseLoop_preserves rest _ ap.doctorId ap.scheduleId
        (setBooked_false_releases bs ap.doctorId ap.scheduleId) b hb hd hsl
    · simp only [List.foldl_cons] at hb
      exact ih _ ap hmem b hb hd hsl

/-- Helper: membership in the reaper's selection. -/
theorem reaperSelect_mem (s : Store) (now : Int) (a : Appointment) :
    a ∈ reaperSelect s now ↔
      a ∈ s.appointments ∧ a.createdAt ≤ now - 30 * 60 * 1000 ∧
        a.paymentStatus = PaymentStatus.UNPAID := by
  simp [reaperSelect, List.mem_filter]

/-- C4 counterexample: appointment 100 is selected as stale from
`bookedStore`, the completion webhook then commits (making it PAID), and
the reaper's bulk transaction still cancels it: the final state has
`paymentStatus = PAID` with `status = CANCELED` and the PaymentRecord
deleted — the mixed state the claim rules out. -/
theorem C4_counterexample :
    (reaperApply paidStore (reaperSelect bookedStore reapTime)).appointments =
      [⟨100, 1, 2, 3, .CANCELED, .PAID, 0⟩] ∧
    (reaperApply paidStore (reaperSelect bookedStore reapTime)).payments = [] := by
  exact ⟨by decide, by decide⟩

/-- C4 (amended): the reaper cancels every appointment whose id was in the
selected list and deletes its payment in one bulk transaction, without
re-reading `paymentStatus` — a PAID appointment in the list is NOT skipped,
so a webhook committing between the select and the transaction yields
CANCELED + PAID with the PaymentRecord deleted; only when no write
intervenes is the outcome the plain CANCELED one. -/
theorem C4_reaper_bulk_cancel (s : Store) (stale : List Appointment) (a : Appointment)
    (ha : a ∈ s.appointments) (hid : a.id ∈ stale.map (fun x => x.id)) :
    { a with status := AppointmentStatus.CANCELED } ∈ (reaperApply s stale).appointments ∧
    ∀ p ∈ (reaperApply s stale).payments, p.appointmentId ≠ a.id :=
  ⟨reaperApply_cancels s stale a ha hid, reaperApply_deletes s stale a hid⟩

/-- Witness for C4 (amended): the PAID appointment 100 is still canceled
and its payment deleted when its id is in the stale list. -/
theorem C4_witness :
    { id := 100, patientId := 1, doctorId := 2, scheduleId := 3,
      status := AppointmentStatus.CANCELED, paymentStatus := PaymentStatus.PAID,
      createdAt := 0 : Appointment } ∈
        (reaperApply paidStore (reaperSelect bookedStore reapTime)).appointments :=
  (C4_reaper_bulk_cancel paidStore (reaperSelect bookedStore reapTime)
    ⟨100, 1, 2, 3, .SCHEDULED, .PAID, 0⟩ (by decide) (by decide)).1

/-- C5: every appointment UNPAID and at least 30 minutes old at a reaper
run ends CANCELED with its binding released and its PaymentRecord removed;
appointments that are PAID or newer than the timeout are not selected. -/
theorem C5_reaper_cancels_stale (s : Store) (now : Int) (a : Appointment)
    (ha : a ∈ s.appointments) (hu : a.paymentStatus = PaymentStatus.UNPAID)
    (ht : a.createdAt ≤ now - 30 * 60 * 1000) :
    { a with status := AppointmentStatus.CANCELED } ∈
      (cancelUnpaidAppointments s now).appointments ∧
    (∀ p ∈ (cancelUnpaidAppointments s now).payments, p.appointmentId ≠ a.id) ∧
    (∀ b ∈ (cancelUnpaidAppointments s now).doctorSchedules,
      b.doctorId = a.doctorId → b.scheduleId = a.scheduleId → b.isBooked = false) ∧
    (∀ a' ∈ s.appointments,
      a'.paymentStatus = PaymentStatus.PAID ∨ now - 30 * 60 * 1000 < a'.createdAt →
      a' ∉ reaperSelect s now) := by
  have hsel : a ∈ reaperSelect s now := (reaperSelect_mem s now a).mpr ⟨ha, ht, hu⟩
  have hid : a.id ∈ (reaperSelect s now).map (fun x => x.id) :=
    List.mem_map_of_mem _ hsel
  refine ⟨reaperApply_cancels s _ a ha hid, reaperApply_deletes s _ a hid, ?_, ?_⟩
  · intro b hb hd hsl
    unfold cancelUnpaidAppointments reaperApply at hb
    dsimp only at hb
    exact releaseLoop_releases (reaperSelect s now) s.doctorSchedules a hsel b hb hd hsl
  · intro a' _ hbad hmem
    rcases (reaperSelect_mem s now a').mp hmem with ⟨_, ht', hu'⟩
    rcases hbad with hpaid | hnew
    · rw [hpaid] at hu'; cases hu'
    · omega

/-- Witness for C5 at `bookedStore`: the stale unpaid appointment 100 is
canceled, its payment removed and its binding released. -/
theorem C5_witness :
    { id := 100, patientId := 1, doctorId := 2, scheduleId := 3,
      status := AppointmentStatus.CANCELED, paymentStatus := PaymentStatus.UNPAID,
      createdAt := 0 : Appointment } ∈
        (cancelUnpaidAppointments bookedStore reapTime).appointments :=
  (C5_reaper_cancels_stale bookedStore reapTime
    ⟨100, 1, 2, 3, .SCHEDULED, .UNPAID, 0⟩ (by decide) (by decide) (by decide)).1

/-! ## C3: what a lost booking race actually returns -/

/-- Helper: a doctor found by `findDoctor s d` has id `d`. -/
theorem findDoctor_id (s : Store) (d : Nat) (doctor : Doctor)
    (h : findDoctor s d = some doctor) : doctor.id = d := by
  have := List.find?_some h
  simp only [decide_eq_true_eq] at this
  exact this.1

/-- Helper: when every binding of the key is already booked, the
`findFirstOrThrow({…, isBooked: false})` pre-check finds nothing. -/
theorem bindingFree_false_of_allBooked (s : Store) (d sl : Nat)
    (h : ∀ b ∈ s.doctorSchedules, b.doctorId = d → b.scheduleId = sl → b.isBooked = true) :
    bindingFree s d sl = false := by
  rw [Bool.eq_false_iff]
  intro hany
  rcases List.any_eq_true.mp hany with ⟨b, hb, hcond⟩
  simp only [decide_eq_true_eq] at hcond
  have := h b hb hcond.1 hcond.2.1
  rw [this] at hcond
  simp at hcond

/-- Helper: pay-now booking against a fully booked binding key fails with
the Prisma record-not-found throw, leaving the store unchanged. -/
theorem createAppointment_booked_fails (s : Store) (e d sl : Nat) (t : Int) (ok : Bool)
    (h : ∀ b ∈ s.doctorSchedules, b.doctorId = d → b.scheduleId = sl → b.isBooked = true) :
    createAppointment s e d sl t ok = (s, Except.error ApiErr.recordNotFound) := by
  unfold createAppointment
  cases hp : findPatient s e with
  | none => rfl
  | some patient =>
    dsimp only
    cases hd : findDoctor s d with
    | none => rfl
    | some doctor =>
      dsimp only
      have hfree : bindingFree s doctor.id sl = false := by
        rw [findDoctor_id s d doctor hd]
        exact bindingFree_false_of_allBooked s d sl h
      rw [hfree]
      rfl

/-- Helper: pay-later booking against a fully booked binding key fails the
same way. -/
theorem payLater_booked_fails (s : Store) (e d sl : Nat) (t : Int)
    (h : ∀ b ∈ s.doctorSchedules, b.doctorId = d → b.scheduleId = sl → b.isBooked = true) :
    createAppointmentWithPayLater s e d sl t = (s, Except.error ApiErr.recordNotFound) := by
  unfold createAppointmentWithPayLater
  cases hp : findPatient s e with
  | none => rfl
  | some patient =>
    dsimp only
    cases hd : findDoctor s d with
    | none => rfl
    | some doctor =>
      dsimp only
      have hfree : bindingFree s doctor.id sl = false := by
        rw [findDoctor_id s d doctor hd]
        exact bindingFree_false_of_allBooked s d sl h
      rw [hfree]
      rfl

/-- Helper: `setBooked … true` books every binding matching the key. -/
theorem setBooked_true_books (bs : List DoctorSchedule) (d sl : Nat) :
    ∀ b ∈ setBooked bs d sl true, b.doctorId = d → b.scheduleId = sl → b.isBooked = true := by
  intro b hb hd hsl
  unfold setBooked at hb
  rcases List.mem_map.mp hb with ⟨b0, hb0, rfl⟩
  by_cases hmatch : b0.doctorId = d ∧ b0.scheduleId = sl
  · rw [if_pos hmatch]
  · rw [if_neg hmatch] at hd hsl ⊢
    exact absurd ⟨hd, hsl⟩ hmatch

/-- Helper: after a successful pay-later booking every binding of the
booked key is `isBooked = true`. -/
theorem payLater_books_binding (s : Store) (e d sl : Nat) (t : Int)
    (s' : Store) (appt : Appointment)
    (h : createAppointmentWithPayLater s e d sl t = (s', Except.ok appt)) :
    ∀ b ∈ s'.doctorSchedules, b.doctorId = d → b.scheduleId = sl → b.isBooked = true := by
  unfold createAppointmentWithPayLater at h
  cases hp : findPatient s e with
  | none => rw [hp] at h; simp at h
  | some patient =>
    rw [hp] at h
    dsimp only at h
    cases hd : findDoctor s d with
    | none => rw [hd] at h; simp at h
    | some doctor =>
      rw [hd] at h
      dsimp only at h
      by_cases hfree : bindingFree s doctor.id sl = true
      · rw [if_pos hfree] at h
        have hs' : s' = (bookingWrites s patient doctor sl t).1 :=
          congrArg Prod.fst h.symm
        rw [hs']
        unfold bookingWrites
        dsimp only
        rw [findDoctor_id s d doctor hd]
        exact setBooked_true_books s.doctorSchedules d sl
      · rw [if_neg hfree] at h
        simp at h

/-- C3 counterexample: in `bookedStore` (patient 1 already holds slot 3 of
doctor 2) a booking attempt by patient 4 (email 11) fails with the Prisma
record-not-found error of the `findFirstOrThrow` pre-check — not with a
Conflict — though it does leave the store unchanged. -/
theorem C3_counterexample :
    createAppointment bookedStore 11 2 3 5 true =
      (bookedStore, Except.error ApiErr.recordNotFound) ∧
    ApiErr.recordNotFound ≠ ApiErr.conflict := by
  exact ⟨by rfl, by decide⟩

/-- C3 (amended): both booking paths check `isBooked == false` with a
`findFirstOrThrow` BEFORE the transaction rather than inside it, and when
every binding of the requested key is already booked the call fails with
the record-not-found throw (not a Conflict), leaving the store unchanged;
in particular, after patient P books slot S, a booking attempt on S by any
patient Q fails that way. -/
theorem C3_booked_slot_rejected :
    (∀ (s : Store) (e d sl : Nat) (t : Int) (ok : Bool),
      (∀ b ∈ s.doctorSchedules, b.doctorId = d → b.scheduleId = sl → b.isBooked = true) →
      createAppointment s e d sl t ok = (s, Except.error ApiErr.recordNotFound)) ∧
    (∀ (s : Store) (e d sl : Nat) (t : Int),
      (∀ b ∈ s.doctorSchedules, b.doctorId = d → b.scheduleId = sl → b.isBooked = true) →
      createAppointmentWithPayLater s e d sl t = (s, Except.error ApiErr.recordNotFound)) ∧
    (∀ (s : Store) (e e' d sl : Nat) (t t' : Int) (s' : Store) (appt : Appointment),
      createAppointmentWithPayLater s e d sl t = (s', Except.ok appt) →
      createAppointmentWithPayLater s' e' d sl t' =
        (s', Except.error ApiErr.recordNotFound)) := by
  refine ⟨createAppointment_booked_fails, payLater_booked_fails, ?_⟩
  intro s e e' d sl t t' s' appt h
  exact payLater_booked_fails s' e' d sl t' (payLater_books_binding s e d sl t s' appt h)

/-- Witness for C3 (amended): patient 4's attempt on the slot patient 1
booked fails with record-not-found and leaves the store as it was. -/
theorem C3_witness :
    createAppointmentWithPayLater bookedStore 11 2 3 5 =
      (bookedStore, Except.error ApiErr.recordNotFound) :=
  C3_booked_slot_rejected.2.2 demoStore 10 11 2 3 0 5 bookedStore
    ⟨100, 1, 2, 3, .SCHEDULED, .UNPAID, 0⟩ (by rfl)

/-! ## C2: the PAID ⇔ PAID invariant over reachable stores -/

/-- Bookkeeping facts every store produced by the modelled operations
satisfies: stored ids are below the id counter, and (`Payment.appointmentId`
is a unique column) no two payments share an appointment. -/
def storeWF (s : Store) : Prop :=
  (∀ a ∈ s.appointments, a.id < s.nextId) ∧
  (∀ p ∈ s.payments, p.id < s.nextId ∧ p.appointmentId < s.nextId) ∧
  List.Pairwise (fun p q : Payment => p.appointmentId ≠ q.appointmentId) s.payments

/-- The spec's invariant: an appointment's `paymentStatus` is PAID exactly
when its payment record's `status` is. -/
def paymentInv (s : Store) : Prop :=
  ∀ a ∈ s.appointments, ∀ p ∈ s.payments, p.appointmentId = a.id →
    (a.paymentStatus = PaymentStatus.PAID ↔ p.status = PaymentStatus.PAID)

/-- A genuine gateway event echoes the correlation metadata that session
creation attached: if its `paymentId` names a stored payment, that payment
belongs to the event's `appointmentId` (§4.3 of the spec: events carry the
original `{appointmentId, paymentId}` of one booking). -/
def evOk (s : Store) (ev : StripeEvent) : Bool :=
  match ev.metaAppointmentId, ev.metaPaymentId with
  | some aid, some pid =>
    s.payments.all (fun p => decide (p.id = pid → p.appointmentId = aid))
  | _, _ => true

/-- The stores reachable from an initial store with no appointments and no
payments by the modelled operations.  The reaper step takes an arbitrary
previously selected list, which covers both the atomic
`cancelUnpaidAppointments` run and the select-then-transact interleaving. -/
inductive Reach : Store → Prop where
  | init (s : Store) (ha : s.appointments = []) (hp : s.payments = []) : Reach s
  | payNow (s : Store) (e d sl : Nat) (t : Int) (ok : Bool) (h : Reach s) :
      Reach (createAppointment s e d sl t ok).1
  | payLater (s : Store) (e d sl : Nat) (t : Int) (h : Reach s) :
      Reach (createAppointmentWithPayLater s e d sl t).1
  | webhook (s : Store) (ev : StripeEvent) (h : Reach s) (hev : evOk s ev = true) :
      Reach (handleStripeWebhookEvent s ev).1
  | reaper (s : Store) (stale : List Appointment) (h : Reach s) :
      Reach (reaperApply s stale)
  | updateStatus (s : Store) (aid : Nat) (st : AppointmentStatus) (em : Option Nat)
      (h : Reach s) : Reach (updateAppointmentStatus s aid st em).1
  | initiate (s : Store) (aid em : Nat) (ok : Bool) (h : Reach s) :
      Reach (initiatePaymentForAppointment s aid em ok).1

/-- Helper: the booking transaction preserves well-formedness and the
invariant (the fresh appointment and payment are both UNPAID and carry the
fresh ids). -/
theorem bookingWrites_preserves (s : Store) (patient : Patient) (doctor : Doctor)
    (sl : Nat) (t : Int) (hwf : storeWF s) (hinv : paymentInv s) :
    storeWF (bookingWrites s patient doctor sl t).1 ∧
      paymentInv (bookingWrites s patient doctor sl t).1 := by
  obtain ⟨hwa, hwp, hpair⟩ := hwf
  unfold bookingWrites
  dsimp only
  constructor
  · refine ⟨?_, ?_, ?_⟩
    · intro a ha
      rcases List.mem_append.mp ha with h | h
      · have := hwa a h; dsimp only; omega
      · rcases List.mem_singleton.mp h with rfl
        simp
    · intro p hp
      rcases List.mem_append.mp hp with h | h
      · have := hwp p h; dsimp only; omega
      · rcases List.mem_singleton.mp h with rfl
        simp
    · rw [List.pairwise_append]
      refine ⟨hpair, List.pairwise_singleton _ _, ?_⟩
      intro p hp q hq
      rcases List.mem_singleton.mp hq with rfl
      have := hwp p hp
      dsimp only
      omega
  · intro a ha p hp heq
    rcases List.mem_append.mp ha with haOld | haNew
    · rcases List.mem_append.mp hp with hpOld | hpNew
      · exact hinv a haOld p hpOld heq
      · rcases List.mem_singleton.mp hpNew with rfl
        have := hwa a haOld
        simp only at heq
        omega
    · rcases List.mem_singleton.mp haNew with rfl
      rcases List.mem_append.mp hp with hpOld | hpNew
      · have := hwp p hpOld
        simp only at heq
        omega
      · rcases List.mem_singleton.mp hpNew with rfl
        simp

/-- Helper: `createAppointment` either leaves the store alone or commits
exactly the booking transaction's writes. -/
theorem createAppointment_fst_cases (s : Store) (e d sl : Nat) (t : Int) (ok : Bool) :
    (createAppointment s e d sl t ok).1 = s ∨
    ∃ patient doctor,
      (createAppointment s e d sl t ok).1 = (bookingWrites s patient doctor sl t).1 := by
  unfold createAppointment
  cases hp : findPatient s e with
  | none => exact Or.inl rfl
  | some patient =>
    dsimp only
    cases hd : findDoctor s d with
    | none => exact Or.inl rfl
    | some doctor =>
      dsimp only
      by_cases hfree : bindingFree s doctor.id sl = true
      · rw [if_pos hfree]
        cases ok with
        | true => exact Or.inr ⟨patient, doctor, rfl⟩
        | false => exact Or.inl rfl
      · rw [if_neg hfree]
        exact Or.inl rfl

/-- Helper: `createAppointmentWithPayLater` either leaves the store alone or
commits exactly the booking transaction's writes. -/
theorem payLater_fst_cases (s : Store) (e d sl : Nat) (t : Int) :
    (createAppointmentWithPayLater s e d sl t).1 = s ∨
    ∃ patient doctor,
      (createAppointmentWithPayLater s e d sl t).1 = (bookingWrites s patient doctor sl t).1 := by
  unfold createAppointmentWithPayLater
  cases hp : findPatient s e with
  | none => exact Or.inl rfl
  | some patient =>
    dsimp only
    cases hd : findDoctor s d with
    | none => exact Or.inl rfl
    | some doctor =>
      dsimp only
      by_cases hfree : bindingFree s doctor.id sl = true
      · rw [if_pos hfree]
        exact Or.inr ⟨patient, doctor, rfl⟩
      · rw [if_neg hfree]
        exact Or.inl rfl

/-- Helper: a metadata-consistent completion event preserves
well-formedness and the invariant: both PAID writes land on one
appointment and its own payment, in one transaction. -/
theorem webhook_preserves (s : Store) (ev : StripeEvent) (hev : evOk s ev = true)
    (hwf : storeWF s) (hinv : paymentInv s) :
    storeWF (handleStripeWebhookEvent s ev).1 ∧
      paymentInv (handleStripeWebhookEvent s ev).1 := by
  obtain ⟨hwa, hwp, hpair⟩ := hwf
  obtain ⟨i, ty, ma, mp⟩ := ev
  cases ty with
  | sessionExpired => exact ⟨⟨hwa, hwp, hpair⟩, hinv⟩
  | paymentFailed => exact ⟨⟨hwa, hwp, hpair⟩, hinv⟩
  | other => exact ⟨⟨hwa, hwp, hpair⟩, hinv⟩
  | sessionCompleted =>
    by_cases hgate : s.payments.any (fun p => decide (p.stripeEventId = some i)) = true
    · simp only [handleStripeWebhookEvent, hgate, if_pos]
      exact ⟨⟨hwa, hwp, hpair⟩, hinv⟩
    · cases ma with
      | none =>
        simp only [handleStripeWebhookEvent, hgate]
        simp only [Bool.false_eq_true, if_neg, not_false_iff]
        exact ⟨⟨hwa, hwp, hpair⟩, hinv⟩
      | some aid =>
        cases mp with
        | none =>
          simp only [handleStripeWebhookEvent, hgate]
          simp only [Bool.false_eq_true, if_neg, not_false_iff]
          exact ⟨⟨hwa, hwp, hpair⟩, hinv⟩
        | some pid =>
          have hmeta : ∀ p ∈ s.payments, p.id = pid → p.appointmentId = aid := by
            intro p hp hpid
            have := List.all_eq_true.mp hev p hp
            simp only [decide_eq_true_eq] at this
            exact this hpid
          by_cases happ : s.appointments.any (fun a => decide (a.id = aid)) = true
          · by_cases hpay : s.payments.any (fun p => decide (p.id = pid)) = true
            · -- the committed transaction
              simp only [handleStripeWebhookEvent, hgate, happ, hpay]
              simp only [Bool.false_eq_true, if_neg, not_false_iff, if_pos, if_true]
              constructor
              · refine ⟨?_, ?_, ?_⟩
                · intro a ha
                  rcases List.mem_map.mp ha with ⟨a0, ha0, rfl⟩
                  by_cases hcase : a0.id = aid
                  · rw [if_pos hcase]; exact hwa a0 ha0
                  · rw [if_neg hcase]; exact hwa a0 ha0
                · intro p hp
                  rcases List.mem_map.mp hp with ⟨p0, hp0, rfl⟩
                  by_cases hcase : p0.id = pid
                  · rw [if_pos hcase]; exact hwp p0 hp0
                  · rw [if_neg hcase]; exact hwp p0 hp0
                · rw [List.pairwise_map]
                  refine hpair.imp_of_mem ?_
                  intro p q hp hq hne
                  by_cases hcp : p.id = pid <;> by_cases hcq : q.id = pid <;>
                    simp [hcp, hcq, hne]
              · intro a' ha' p' hp' heq
                rcases List.mem_map.mp ha' with ⟨a, ha, rfl⟩
                rcases List.mem_map.mp hp' with ⟨p, hp, rfl⟩
                by_cases hca : a.id = aid <;> by_cases hcp : p.id = pid
                · -- the updated appointment with the updated payment
                  simp [hca, hcp]
                · -- updated appointment, some other payment: impossible
                  rw [if_pos hca] at heq ⊢
                  rw [if_neg hcp] at heq ⊢
                  exfalso
                  rcases List.any_eq_true.mp hpay with ⟨p0, hp0, hp0id⟩
                  simp only [decide_eq_true_eq] at hp0id
                  have hp0aid : p0.appointmentId = aid := hmeta p0 hp0 hp0id
                  have hpaid : p.appointmentId = aid := by
                    simpa [hca] using heq
                  have hpq : p = p0 := by
                    by_contra hne
                    exact (hpair.forall (fun x y hxy => hxy.symm) hp hp0 hne)
                      (hpaid.trans hp0aid.symm)
                  rw [hpq] at hcp
                  exact hcp hp0id
                · -- other appointment, the updated payment: impossible
                  rw [if_neg hca] at heq ⊢
                  rw [if_pos hcp] at heq ⊢
                  exfalso
                  have hpa : p.appointmentId = aid := hmeta p hp hcp
                  simp only at heq
                  exact hca (by rw [← heq]; exact hpa)
                · rw [if_neg hca] at heq ⊢
                  rw [if_neg hcp] at heq ⊢
                  exact hinv a ha p hp heq
            · simp only [handleStripeWebhookEvent, hgate, happ, hpay]
              simp only [Bool.false_eq_true, if_neg, not_false_iff, if_pos, if_true]
              exact ⟨⟨hwa, hwp, hpair⟩, hinv⟩
          · simp only [handleStripeWebhookEvent, hgate, happ]
            simp only [Bool.false_eq_true, if_neg, not_false_iff]
            exact ⟨⟨hwa, hwp, hpair⟩, hinv⟩

/-- Helper: the reaper's bulk transaction preserves well-formedness and the
invariant (a canceled appointment keeps its `paymentStatus` but loses its
payment record, making the biconditional vacuous for it). -/
theorem reaperApply_preserves (s : Store) (stale : List Appointment)
    (hwf : storeWF s) (hinv : paymentInv s) :
    storeWF (reaperApply s stale) ∧ paymentInv (reaperApply s stale) := by
  obtain ⟨hwa, hwp, hpair⟩ := hwf
  unfold reaperApply
  dsimp only
  constructor
  · refine ⟨?_, ?_, ?_⟩
    · intro a ha
      rcases List.mem_map.mp ha with ⟨a0, ha0, rfl⟩
      by_cases hcase : a0.id ∈ stale.map (fun y => y.id)
      · rw [if_pos hcase]; exact hwa a0 ha0
      · rw [if_neg hcase]; exact hwa a0 ha0
    · intro p hp
      exact hwp p (List.mem_of_mem_filter hp)
    · exact hpair.sublist (List.filter_sublist _)
  · intro a' ha' p' hp' heq
    rcases List.mem_map.mp ha' with ⟨a, ha, rfl⟩
    have hp'mem : p' ∈ s.payments := List.mem_of_mem_filter hp'
    have hp'notin : p'.appointmentId ∉ stale.map (fun y => y.id) := by
      have := List.of_mem_filter hp'
      simpa using this
    by_cases hcase : a.id ∈ stale.map (fun y => y.id)
    · rw [if_pos hcase] at heq
      exfalso
      simp only at heq
      exact hp'notin (heq ▸ hcase)
    · rw [if_neg hcase] at heq ⊢
      exact hinv a ha p' hp'mem heq

/-- Helper: a status update preserves well-formedness and the invariant
(it never touches `paymentStatus` or any payment). -/
theorem updateStatus_preserves (s : Store) (aid : Nat) (st : AppointmentStatus)
    (em : Option Nat) (hwf : storeWF s) (hinv : paymentInv s) :
    storeWF (updateAppointmentStatus s aid st em).1 ∧
      paymentInv (updateAppointmentStatus s aid st em).1 := by
  obtain ⟨hwa, hwp, hpair⟩ := hwf
  have key : storeWF (setStatus s aid st) ∧ paymentInv (setStatus s aid st) := by
    unfold setStatus
    constructor
    · refine ⟨?_, hwp, hpair⟩
      intro a ha
      rcases List.mem_map.mp ha with ⟨a0, ha0, rfl⟩
      dsimp only
      by_cases hcase : a0.id = aid
      · rw [if_pos hcase]; exact hwa a0 ha0
      · rw [if_neg hcase]; exact hwa a0 ha0
    · intro a' ha' p hp heq
      rcases List.mem_map.mp ha' with ⟨a, ha, rfl⟩
      by_cases hcase : a.id = aid
      · rw [if_pos hcase] at heq ⊢
        simp only at heq ⊢
        exact hinv a ha p hp heq
      · rw [if_neg hcase] at heq ⊢
        exact hinv a ha p hp heq
  unfold updateAppointmentStatus
  cases hfind : s.appointments.find? (fun a => decide (a.id = aid)) with
  | none => exact ⟨⟨hwa, hwp, hpair⟩, hinv⟩
  | some appointment =>
    dsimp only
    cases em with
    | none => exact key
    | some e =>
      dsimp only
      by_cases hown :
          ((s.doctors.find? (fun d => decide (d.id = appointment.doctorId))).map
            (fun d => d.email)) ≠ some e
      · rw [if_pos hown]
        exact ⟨⟨hwa, hwp, hpair⟩, hinv⟩
      · rw [if_neg hown]
        exact key

/-- Helper: every reachable store is well-formed and satisfies the
PAID ⇔ PAID invariant. -/
theorem reach_wf_inv (s : Store) (h : Reach s) : storeWF s ∧ paymentInv s := by
  induction h with
  | init s ha hp =>
    refine ⟨⟨?_, ?_, ?_⟩, ?_⟩
    · intro a hmem; rw [ha] at hmem; cases hmem
    · intro p hmem; rw [hp] at hmem; cases hmem
    · rw [hp]; exact List.Pairwise.nil
    · intro a hmem; rw [ha] at hmem; cases hmem
  | payNow s e d sl t ok h ih =>
    rcases createAppointment_fst_cases s e d sl t ok with heq | ⟨patient, doctor, heq⟩
    · rw [heq]; exact ih
    · rw [heq]; exact bookingWrites_preserves s patient doctor sl t ih.1 ih.2
  | payLater s e d sl t h ih =>
    rcases payLater_fst_cases s e d sl t with heq | ⟨patient, doctor, heq⟩
    · rw [heq]; exact ih
    · rw [heq]; exact bookingWrites_preserves s patient doctor sl t ih.1 ih.2
  | webhook s ev h hev ih => exact webhook_preserves s ev hev ih.1 ih.2
  | reaper s stale h ih => exact reaperApply_preserves s stale ih.1 ih.2
  | updateStatus s aid st em h ih => exact updateStatus_preserves s aid st em ih.1 ih.2
  | initiate s aid em ok h ih => rw [initiatePayment_readonly s aid em ok]; exact ih

/-- C2: in every reachable store, an appointment that has a payment record
is PAID exactly when that record is PAID — every write path (the booking
transaction, the webhook's one-transaction double write, the reaper's
cancel-and-delete, status updates) preserves the biconditional. -/
theorem C2_payment_status_invariant (s : Store) (h : Reach s) :
    ∀ a ∈ s.appointments, ∀ p ∈ s.payments, p.appointmentId = a.id →
      (a.paymentStatus = PaymentStatus.PAID ↔ p.status = PaymentStatus.PAID) :=
  (reach_wf_inv s h).2

/-- Witness for C2: in the store reached by booking then completing the
payment, appointment 100 and its payment 101 satisfy the biconditional
(both are PAID). -/
theorem C2_witness :
    { id := 100, patientId := 1, doctorId := 2, scheduleId := 3,
      status := AppointmentStatus.SCHEDULED, paymentStatus := PaymentStatus.PAID,
      createdAt := 0 : Appointment }.paymentStatus = PaymentStatus.PAID ↔
    { id := 101, appointmentId := 100, amount := 500, transactionId := 101,
      status := PaymentStatus.PAID, stripeEventId := some 7 : Payment }.status =
        PaymentStatus.PAID :=
  C2_payment_status_invariant paidStore
    (Reach.webhook bookedStore evCompleted
      (Reach.payLater demoStore 10 2 3 0 (Reach.init demoStore rfl rfl))
      (by decide))
    ⟨100, 1, 2, 3, .SCHEDULED, .PAID, 0⟩ (by decide)
    ⟨101, 100, 500, 101, .PAID, some 7⟩ (by decide) (by decide)

end Helthcare
